import Mathlib

/-!
Shallow embedding of `pkg/zapwrapper/zapwrapper.go` (package `zapwrapper`,
function `NewLogger`) and proofs about its retention, naming and sink
behaviour.  Machine integers (`int`) are modelled as `Int`; the filesystem
directory is modelled as a list of entry names; the Go runtime panic on an
out-of-range slice index is modelled as the `Except.error` branch.
-/

namespace Zapwrapper

/-! ### Severity levels (zapcore.Level) -/

/-- The seven zapcore severity levels handled by the source's `switch`. -/
inductive Level where
  | debug
  | info
  | warn
  | error
  | dpanic
  | panic
  | fatal
deriving DecidableEq, Repr

/-- Numeric value of a zapcore level (zapcore: Debug = -1 … Fatal = 5). -/
def Level.toInt : Level → Int
  | .debug => -1
  | .info => 0
  | .warn => 1
  | .error => 2
  | .dpanic => 3
  | .panic => 4
  | .fatal => 5

/-- `levelEnabled min lvl` : whether a core with minimum level `min` accepts a
record at level `lvl` (zapcore's `Enabled`: `lvl >= min`). -/
def levelEnabled (min lvl : Level) : Bool :=
  min.toInt ≤ lvl.toInt

/-- `zapcore.Level.CapitalString`. -/
def Level.capitalString : Level → String
  | .debug => "DEBUG"
  | .info => "INFO"
  | .warn => "WARN"
  | .error => "ERROR"
  | .dpanic => "DPANIC"
  | .panic => "PANIC"
  | .fatal => "FATAL"

/-! ### ANSI colors (source constants and the `EncodeLevel` switch) -/

def colorRed : String := "\x1b[31m"

def colorGreen : String := "\x1b[32m"

def colorYellow : String := "\x1b[33m"

def colorMagenta : String := "\x1b[35m"

def colorCyan : String := "\x1b[36m"

def colorReset : String := "\x1b[0m"

/-- The color chosen by the `switch level` inside the console
`EncodeLevel` function of `NewLogger`. -/
def colorFor : Level → String
  | .debug => colorCyan
  | .info => colorGreen
  | .warn => colorYellow
  | .error => colorRed
  | .dpanic => colorMagenta
  | .panic => colorMagenta
  | .fatal => colorRed

/-! ### Wall-clock time and Go time formatting -/

/-- A wall-clock date-time at second resolution (the fields Go's layouts
`02-01-06_15-04-05` etc. render). -/
structure DateTime where
  year : Nat
  month : Nat
  day : Nat
  hour : Nat
  minute : Nat
  second : Nat
deriving DecidableEq, Repr

/-- A wall-clock instant: a second-resolution date-time plus the sub-second
part that none of the source's layouts render. -/
structure Instant where
  dt : DateTime
  nanos : Nat
deriving DecidableEq, Repr

/-- Chronological (strict) order on date-times: lexicographic on
(year, month, day, hour, minute, second). -/
def chronLt (a b : DateTime) : Prop :=
  a.year < b.year ∨ (a.year = b.year ∧
    (a.month < b.month ∨ (a.month = b.month ∧
      (a.day < b.day ∨ (a.day = b.day ∧
        (a.hour < b.hour ∨ (a.hour = b.hour ∧
          (a.minute < b.minute ∨ (a.minute = b.minute ∧
            a.second < b.second)))))))))

instance (a b : DateTime) : Decidable (chronLt a b) := by
  unfold chronLt; infer_instance

/-- Go zero-pads two-digit numeric layout fields (`02`, `01`, `06`, `15`,
`04`, `05`). -/
def pad2 (n : Nat) : String :=
  (if n < 10 then "0" else "") ++ toString n

/-- Go zero-pads the four-digit year layout field `2006`. -/
def pad4 (n : Nat) : String :=
  (if n < 10 then "000" else if n < 100 then "00" else if n < 1000 then "0" else "") ++ toString n

/-- `time.Now().Format("02-01-06_15-04-05")` : the file-name timestamp,
day-month-year(2-digit)_hour-minute-second. -/
def formatStamp (t : DateTime) : String :=
  pad2 t.day ++ "-" ++ pad2 t.month ++ "-" ++ pad2 (t.year % 100) ++ "_" ++
    pad2 t.hour ++ "-" ++ pad2 t.minute ++ "-" ++ pad2 t.second

/-- The console `EncodeTime` layout `02-01-06 15:04:05`. -/
def consoleTime (t : DateTime) : String :=
  pad2 t.day ++ "-" ++ pad2 t.month ++ "-" ++ pad2 (t.year % 100) ++ " " ++
    pad2 t.hour ++ ":" ++ pad2 t.minute ++ ":" ++ pad2 t.second

/-- The file `EncodeTime` layout `02-01-2006 15:04:05` (4-digit year). -/
def fileTime (t : DateTime) : String :=
  pad2 t.day ++ "-" ++ pad2 t.month ++ "-" ++ pad4 t.year ++ " " ++
    pad2 t.hour ++ ":" ++ pad2 t.minute ++ ":" ++ pad2 t.second

/-- The base name of the file a factory call at instant `i` writes to:
`"logs_" + timestamp + ".log"`. -/
def logBasename (t : DateTime) : String :=
  "logs_" ++ formatStamp t ++ ".log"

/-- `filename := filepath + "/logs_" + timestamp + ".log"` from the source. -/
def newLogFilename (filepath : String) (i : Instant) : String :=
  filepath ++ "/logs_" ++ formatStamp i.dt ++ ".log"

/-- Does an entry name match the logger's own naming scheme `logs_*.log`?
The source's pruning never consults this predicate. -/
def matchesLogPattern (s : String) : Bool :=
  "logs_".data.isPrefixOf s.data && ".log".data.isSuffixOf s.data

/-! ### Go string comparison

Go's `<` on strings is byte-wise lexicographic; on the ASCII names this
program builds it is character-wise lexicographic.  It is embedded as a
structurally recursive Boolean comparison (Lean's own `String.lt` decision
procedure is not kernel-reducible). -/

/-- Lexicographic strict order on character lists (Go string `<`). -/
def strLtList : List Char → List Char → Bool
  | [], [] => false
  | [], _ :: _ => true
  | _ :: _, [] => false
  | a :: as, b :: bs =>
    if a < b then true
    else if b < a then false
    else strLtList as bs

/-- Go's `s < t` on strings. -/
def strLt (a b : String) : Bool :=
  strLtList a.data b.data

/-- The non-strict order induced by Go's `<`: `a ≤ b` iff `¬(b < a)`.
`sort.Slice` with the source's `less` function sorts ascending with
respect to this order. -/
def goLe (a b : String) : Prop :=
  strLt b a = false

instance (a b : String) : Decidable (goLe a b) :=
  inferInstanceAs (Decidable (strLt b a = false))

/-! ### The directory and the pruning step -/

/-- State of the target directory as the factory call observes it:
absent (`os.Stat` fails), or present with its entry names, where
`readable = false` means `os.ReadDir` fails (its error is discarded by
the source, leaving a nil slice). -/
inductive DirState where
  | absent
  | present (entries : List String) (readable : Bool)
deriving DecidableEq, Repr

/-- Number of entries actually in the directory. -/
def DirState.count : DirState → Nat
  | .absent => 0
  | .present entries _ => entries.length

/-- `sort.Slice(files, …Name() < …Name())` : ascending sort by name. -/
def sortNames (l : List String) : List String :=
  l.insertionSort goLe

/-- The message of the Go runtime panic that an out-of-range `files[0]`
would raise. -/
def indexOutOfRange : String := "runtime error: index out of range [0] with length 0"

/-- `files, _ := os.ReadDir(filepath)` : the slice the source works on — the
directory's entries, or a nil slice when the read error (discarded by the
source) occurred. -/
def listedFiles (entries : List String) (readable : Bool) : List String :=
  if readable then entries else []

/-- Lines 134–146 of the source: if `os.Stat` succeeds, read the directory
(ignoring a read error, which leaves zero files), and if the file count
exceeds `maxBackup`, sort by name and remove the first (smallest-named)
file.  The `files[0]` access is modelled by the `match`: an empty slice
there is the Go panic, returned as `Except.error`. -/
def pruneStep (maxBackup : Int) (d : DirState) : Except String DirState :=
  match d with
  | .absent => .ok .absent
  | .present entries readable =>
    if ((listedFiles entries readable).length : Int) > maxBackup then
      match sortNames (listedFiles entries readable) with
      | [] => .error indexOutOfRange
      | oldest :: _ => .ok (.present (entries.erase oldest) readable)
    else
      .ok (.present entries readable)

/-! ### The factory and the logger handle -/

/-- The handle `NewLogger` returns: a tee of a console core and a file core,
both gated at `minLevel`, the file core bound to `filename`. -/
structure Logger where
  minLevel : Level
  filename : String
deriving DecidableEq, Repr

/-- `NewLogger(filepath, maxBackup, logLevel)` observed at instant `now`
against directory state `d`: computes the new file name, builds the tee
logger, prunes, and returns the handle.  The only failure is the modelled
`files[0]` panic inside pruning. -/
def NewLogger (d : DirState) (filepath : String) (maxBackup : Int)
    (logLevel : Level) (now : Instant) : Except String (Logger × DirState) :=
  (pruneStep maxBackup d).map
    (fun d' => ({ minLevel := logLevel, filename := newLogFilename filepath now }, d'))

/-- Creation of the new log file by the rotating writer on first write:
lumberjack creates the directory if needed and appends to an existing file
of the same name (no duplicate entry). -/
def addFile (d : DirState) (name : String) : DirState :=
  match d with
  | .absent => .present [name] true
  | .present entries readable =>
    if name ∈ entries then .present entries readable
    else .present (entries ++ [name]) readable

/-- One scenario step parameterised by the generated base name: prune,
then the new file appears (written and flushed). -/
def factoryCallName (maxBackup : Int) (name : String) (d : DirState) :
    Except String DirState :=
  (pruneStep maxBackup d).map (fun d' => addFile d' name)

/-- One scenario step "call the factory at time `t`, write one record,
flush". -/
def factoryCallAt (maxBackup : Int) (t : DateTime) (d : DirState) :
    Except String DirState :=
  factoryCallName maxBackup (logBasename t) d

/-- A sequence of scenario steps, one per call time. -/
def runCalls (maxBackup : Int) (ts : List DateTime) (d : DirState) :
    Except String DirState :=
  match ts with
  | [] => .ok d
  | t :: rest =>
    match factoryCallAt maxBackup t d with
    | .error e => .error e
    | .ok d' => runCalls maxBackup rest d'

/-- A sequence of scenario steps, one per generated base name. -/
def runCallsNames (maxBackup : Int) (names : List String) (d : DirState) :
    Except String DirState :=
  match names with
  | [] => .ok d
  | n :: rest =>
    match factoryCallName maxBackup n d with
    | .error e => .error e
    | .ok d' => runCallsNames maxBackup rest d'

/-! ### Concrete scenario instants (spec §8, scenario 6)

Five call times one second apart within one day, and a pair of
chronologically adjacent times on either side of a year boundary. -/

def sT1 : DateTime := ⟨2025, 1, 1, 10, 0, 0⟩

def sT2 : DateTime := ⟨2025, 1, 1, 10, 0, 1⟩

def sT3 : DateTime := ⟨2025, 1, 1, 10, 0, 2⟩

def sT4 : DateTime := ⟨2025, 1, 1, 10, 0, 3⟩

def sT5 : DateTime := ⟨2025, 1, 1, 10, 0, 4⟩

/-- The directory contents the 5-call scenario actually ends with. -/
def c1FinalEntries : List String :=
  [logBasename sT2, logBasename sT3, logBasename sT4, logBasename sT5]

def newYearEve : DateTime := ⟨2024, 12, 31, 23, 59, 59⟩

def newYearDay : DateTime := ⟨2025, 1, 1, 0, 0, 0⟩

/-! ### Record emission through the two sinks

The encoder/core/tee collaborators are the zap library, not this
repository; their behaviour is modelled from the spec, with the
configuration (shared `logLevel`, color function, time layouts) taken from
the source. -/

/-- A structured field, already rendered to a key and a value string. -/
structure Field where
  key : String
  value : String
deriving DecidableEq, Repr

/-- A log record: severity, time, message, fields. -/
structure Record where
  level : Level
  time : DateTime
  msg : String
  fields : List Field
deriving DecidableEq, Repr

/-- Modelled from the spec: the rendering of the record's fields, shared
verbatim by both sinks (§8 dual-sink consistency). -/
def renderFields (fs : List Field) : String :=
  String.join (fs.map (fun f => "\t" ++ f.key ++ "=" ++ f.value))

/-- The message-and-fields content of a record, common to both sinks. -/
def recordBody (r : Record) : String :=
  r.msg ++ renderFields r.fields

/-- Modelled from the spec: the console sink's rendering of an accepted
record — colorized level tag (source `EncodeLevel`), 2-digit-year
timestamp (source console `EncodeTime`), then message and fields. -/
def consoleLine (r : Record) : String :=
  consoleTime r.time ++ "\t" ++
    (colorFor r.level ++ r.level.capitalString ++ colorReset) ++ "\t" ++
    recordBody r

/-- Modelled from the spec: the file sink's rendering of an accepted record
— plain capital level tag, 4-digit-year timestamp (source file
`EncodeTime`), then message and fields. -/
def fileLine (r : Record) : String :=
  fileTime r.time ++ "\t" ++ r.level.capitalString ++ "\t" ++ recordBody r

/-- Modelled from the spec: a level-gated core writes the rendered record
iff the record's level reaches the core's minimum level. -/
def coreEmit (min : Level) (render : Record → String) (r : Record) :
    Option String :=
  if levelEnabled min r.level then some (render r) else none

/-- Modelled from the spec: the tee forwards each record to the console
core and the file core independently; both were built with the same
`logLevel` in the source. -/
def teeEmit (lg : Logger) (r : Record) : Option String × Option String :=
  (coreEmit lg.minLevel consoleLine r, coreEmit lg.minLevel fileLine r)

/-- A sample logger handle for exercising the emission model. -/
def sampleLogger : Logger :=
  { minLevel := .info, filename := "logs/logs_01-01-25_10-00-00.log" }

/-- A sample record above the sample logger's minimum level. -/
def sampleWarnRecord : Record :=
  { level := .warn, time := sT1, msg := "disk almost full", fields := [⟨"used", "91"⟩] }

/-- A sample record below the sample logger's minimum level. -/
def sampleDebugRecord : Record :=
  { level := .debug, time := sT1, msg := "probe", fields := [] }

/-! ## Helper lemmas: the Go string order -/

theorem strLtList_irrefl : ∀ l : List Char, strLtList l l = false
  | [] => rfl
  | a :: as => by simp [strLtList, lt_irrefl a, strLtList_irrefl as]

theorem strLtList_asymm : ∀ {a b : List Char},
    strLtList a b = true → strLtList b a = false
  | [], [], h => by simp [strLtList] at h
  | [], _ :: _, _ => rfl
  | _ :: _, [], h => by simp [strLtList] at h
  | x :: xs, y :: ys, h => by
    simp only [strLtList] at h ⊢
    by_cases hxy : x < y
    · rw [if_neg (lt_asymm hxy), if_pos hxy]
    · by_cases hyx : y < x
      · simp [hxy, hyx] at h
      · simp only [hxy, hyx, if_false] at h ⊢
        exact strLtList_asymm h

theorem strLtList_trans : ∀ {a b c : List Char},
    strLtList a b = true → strLtList b c = true → strLtList a c = true
  | [], [], _, h1, _ => by simp [strLtList] at h1
  | [], _ :: _, [], _, h2 => by simp [strLtList] at h2
  | [], _ :: _, _ :: _, _, _ => rfl
  | _ :: _, [], _, h1, _ => by simp [strLtList] at h1
  | _ :: _, _ :: _, [], _, h2 => by simp [strLtList] at h2
  | x :: xs, y :: ys, z :: zs, h1, h2 => by
    simp only [strLtList] at h1 h2 ⊢
    by_cases hxy : x < y
    · by_cases hyz : y < z
      · simp [lt_trans hxy hyz]
      · by_cases hzy : z < y
        · simp [hyz, hzy] at h2
        · have hyz' : y = z := le_antisymm (not_lt.1 hzy) (not_lt.1 hyz)
          subst hyz'
          simp [hxy]
    · by_cases hyx : y < x
      · simp [hxy, hyx] at h1
      · have hxy' : x = y := le_antisymm (not_lt.1 hyx) (not_lt.1 hxy)
        subst hxy'
        simp only [lt_irrefl, if_false] at h1
        by_cases hxz : x < z
        · simp [hxz]
        · by_cases hzx : z < x
          · simp [hxz, hzx] at h2
          · have hxz' : x = z := le_antisymm (not_lt.1 hzx) (not_lt.1 hxz)
            subst hxz'
            simp only [lt_irrefl, if_false] at h2 ⊢
            exact strLtList_trans h1 h2

theorem strLtList_connex : ∀ {a b : List Char},
    strLtList a b = false → strLtList b a = false → a = b
  | [], [], _, _ => rfl
  | [], _ :: _, h1, _ => by simp [strLtList] at h1
  | _ :: _, [], _, h2 => by simp [strLtList] at h2
  | x :: xs, y :: ys, h1, h2 => by
    simp only [strLtList] at h1 h2
    by_cases hxy : x < y
    · simp [hxy] at h1
    · by_cases hyx : y < x
      · simp [hxy, hyx] at h2
      · have hxy' : x = y := le_antisymm (not_lt.1 hyx) (not_lt.1 hxy)
        subst hxy'
        simp only [lt_irrefl, if_false] at h1 h2
        rw [strLtList_connex h1 h2]

theorem strLt_irrefl (a : String) : strLt a a = false :=
  strLtList_irrefl a.data

theorem strLt_asymm {a b : String} (h : strLt a b = true) : strLt b a = false :=
  strLtList_asymm h

theorem strLt_trans {a b c : String} (h1 : strLt a b = true)
    (h2 : strLt b c = true) : strLt a c = true :=
  strLtList_trans h1 h2

theorem strLt_connex {a b : String} (h1 : strLt a b = false)
    (h2 : strLt b a = false) : a = b := by
  have hd : a.data = b.data := strLtList_connex h1 h2
  cases a
  cases b
  exact congrArg String.mk hd

theorem ne_of_strLt {a b : String} (h : strLt a b = true) : a ≠ b := by
  intro he
  subst he
  rw [strLt_irrefl] at h
  exact Bool.false_ne_true h

theorem goLe_of_strLt {a b : String} (h : strLt a b = true) : goLe a b :=
  strLt_asymm h

instance : IsRefl String goLe :=
  ⟨fun a => strLt_irrefl a⟩

instance : IsTrans String goLe := by
  refine ⟨fun a b c h1 h2 => ?_⟩
  cases hca : strLt c a with
  | false => exact hca
  | true =>
    exfalso
    cases hbc : strLt b c with
    | true =>
      have : strLt b a = true := strLt_trans hbc hca
      rw [h1] at this
      exact Bool.false_ne_true this
    | false =>
      have hbceq : b = c := strLt_connex hbc h2
      subst hbceq
      rw [h1] at hca
      exact Bool.false_ne_true hca

instance : IsTotal String goLe := by
  refine ⟨fun a b => ?_⟩
  cases hab : strLt b a with
  | false => exact Or.inl hab
  | true => exact Or.inr (strLt_asymm hab)

/-! ## Helper lemmas: sorting and pruning -/

theorem sortNames_perm (l : List String) : (sortNames l).Perm l :=
  List.perm_insertionSort goLe l

theorem sortNames_sorted (l : List String) : List.Sorted goLe (sortNames l) :=
  List.sorted_insertionSort goLe l

theorem sortNames_length (l : List String) : (sortNames l).length = l.length :=
  (sortNames_perm l).length_eq

theorem sortNames_ne_nil {l : List String} (h : l ≠ []) : sortNames l ≠ [] := by
  intro hs
  apply h
  have := sortNames_length l
  rw [hs] at this
  exact List.length_eq_zero.mp this.symm

theorem sortNames_head_min {l : List String} {m : String} {rest : List String}
    (h : sortNames l = m :: rest) : m ∈ l ∧ ∀ x ∈ l, goLe m x := by
  have hmem : m ∈ l := (sortNames_perm l).mem_iff.mp (h ▸ List.mem_cons_self m rest)
  refine ⟨hmem, fun x hx => ?_⟩
  have hx' : x ∈ sortNames l := (sortNames_perm l).mem_iff.mpr hx
  rw [h] at hx'
  rcases List.mem_cons.mp hx' with he | ht
  · rw [he]
    exact refl_of goLe m
  · exact List.rel_of_sorted_cons (h ▸ sortNames_sorted l) x ht

theorem sortNames_head_unique_min {l : List String} {u m : String}
    {rest : List String} (h : sortNames l = m :: rest) (hu : u ∈ l)
    (hmin : ∀ x ∈ l, x ≠ u → strLt u x = true) : m = u := by
  obtain ⟨hm, hle⟩ := sortNames_head_min h
  by_contra hne
  have h1 : strLt u m = true := hmin m hm hne
  have h2 : strLt u m = false := hle u hu
  rw [h1] at h2
  exact Bool.noConfusion h2

theorem sorted_of_sorted_names {l : List String}
    (h : List.Sorted (fun a b => strLt a b = true) l) : List.Sorted goLe l :=
  h.imp (fun hab => goLe_of_strLt hab)

theorem listedFiles_true (es : List String) : listedFiles es true = es := rfl

theorem listedFiles_false (es : List String) : listedFiles es false = [] := rfl

theorem pruneStep_present_le {k : Int} {es : List String} {r : Bool}
    (h : ((listedFiles es r).length : Int) ≤ k) :
    pruneStep k (.present es r) = .ok (.present es r) := by
  simp only [pruneStep]
  rw [if_neg (not_lt.2 h)]

theorem pruneStep_present_gt {k : Int} {es : List String} {m : String}
    {rest : List String} (h : (es.length : Int) > k)
    (hs : sortNames es = m :: rest) :
    pruneStep k (.present es true) = .ok (.present (es.erase m) true) := by
  simp only [pruneStep, listedFiles_true]
  rw [if_pos h, hs]

theorem pruneStep_readable_ok {k : Int} (es : List String) (hk : 0 ≤ k) :
    ∃ es' : List String, pruneStep k (.present es true) = .ok (.present es' true) ∧
      (es'.length : Int) + (if (es.length : Int) > k then 1 else 0) = es.length := by
  by_cases hgt : (es.length : Int) > k
  · have hne : es ≠ [] := by
      intro he
      rw [he] at hgt
      simp at hgt
      omega
    obtain ⟨m, rest, hs⟩ : ∃ m rest, sortNames es = m :: rest := by
      cases hsn : sortNames es with
      | nil => exact absurd hsn (sortNames_ne_nil hne)
      | cons m rest => exact ⟨m, rest, rfl⟩
    have hm : m ∈ es := (sortNames_head_min hs).1
    refine ⟨es.erase m, pruneStep_present_gt hgt hs, ?_⟩
    have := List.length_erase_add_one hm
    rw [if_pos hgt]
    omega
  · refine ⟨es, pruneStep_present_le (by rw [listedFiles_true]; omega), ?_⟩
    rw [if_neg hgt]
    omega

theorem addFile_count (d : DirState) (n : String) :
    (addFile d n).count ≤ d.count + 1 := by
  cases d with
  | absent => simp [addFile, DirState.count]
  | present es r =>
    by_cases h : n ∈ es <;> simp [addFile, h, DirState.count]

theorem addFile_present (es : List String) (r : Bool) (n : String) :
    ∃ es' : List String, addFile (.present es r) n = .present es' r ∧
      es'.length ≤ es.length + 1 := by
  by_cases h : n ∈ es
  · exact ⟨es, by simp [addFile, h], by omega⟩
  · exact ⟨es ++ [n], by simp [addFile, h], by simp⟩

theorem addFile_not_mem {es : List String} {n : String} (h : n ∉ es) (r : Bool) :
    addFile (.present es r) n = .present (es ++ [n]) r := by
  simp [addFile, h]

/-! ## Claim theorems -/

/-- Claim C2 (code bug): the generated file names are distinct for distinct
wall-clock seconds, but their lexicographic order does not equal the
chronological order: at the explicit inputs 31-12-2024 23:59:59 and
01-01-2025 00:00:00 the later call's name sorts strictly before the
earlier call's name, because the `02-01-06` layout puts the day before the
month and year. -/
theorem c2_name_order_breaks_chronology :
    chronLt newYearEve newYearDay ∧
    logBasename newYearEve ≠ logBasename newYearDay ∧
    strLt (logBasename newYearDay) (logBasename newYearEve) = true ∧
    strLt (logBasename newYearEve) (logBasename newYearDay) = false :=
  ⟨by decide, by decide, by decide, by decide⟩

/-- Claim C4: for an existing readable directory, a factory call with
`0 ≤ retentionCount` deletes nothing when the entry count is at most
`retentionCount`; when the count strictly exceeds it, it deletes exactly
one entry — a name that is minimal (in Go's string order) among all
entries — and leaves every other entry in place. -/
theorem c4_oldest_first_eviction (k : Int) (es : List String) (hk : 0 ≤ k) :
    ((es.length : Int) ≤ k → pruneStep k (.present es true) = .ok (.present es true)) ∧
    ((es.length : Int) > k → ∃ m, m ∈ es ∧ (∀ x ∈ es, goLe m x) ∧
      pruneStep k (.present es true) = .ok (.present (es.erase m) true) ∧
      (es.erase m).length + 1 = es.length) := by
  constructor
  · intro hle
    exact pruneStep_present_le (by rw [listedFiles_true]; exact hle)
  · intro hgt
    have hne : es ≠ [] := by
      intro he
      rw [he] at hgt
      simp only [List.length_nil, Nat.cast_zero] at hgt
      omega
    obtain ⟨m, rest, hs⟩ : ∃ m rest, sortNames es = m :: rest := by
      cases hsn : sortNames es with
      | nil => exact absurd hsn (sortNames_ne_nil hne)
      | cons m rest => exact ⟨m, rest, rfl⟩
    obtain ⟨hm, hmin⟩ := sortNames_head_min hs
    exact ⟨m, hm, hmin, pruneStep_present_gt hgt hs, List.length_erase_add_one hm⟩

/-- Witness for C4 at a concrete directory below the limit. -/
theorem c4_witness :
    pruneStep 2 (.present ["logs_b.log", "logs_a.log"] true) =
      .ok (.present ["logs_b.log", "logs_a.log"] true) :=
  (c4_oldest_first_eviction 2 ["logs_b.log", "logs_a.log"] (by norm_num)).1 (by norm_num)

/-- Claim C6: a `stat` failure (absent directory) or a `ReadDir` failure is
recovered locally — no pruning action, no deletion, no surfaced error —
and for every directory state the factory returns a usable handle carrying
the configured level and the new file's path (given `0 ≤ maxBackup`). -/
theorem c6_listing_errors_recovered (fp : String) (k : Int) (lv : Level)
    (i : Instant) (es : List String) (hk : 0 ≤ k) :
    NewLogger .absent fp k lv i =
      .ok ({ minLevel := lv, filename := newLogFilename fp i }, .absent) ∧
    NewLogger (.present es false) fp k lv i =
      .ok ({ minLevel := lv, filename := newLogFilename fp i }, .present es false) ∧
    ∀ d : DirState, ∃ lg d', NewLogger d fp k lv i = .ok (lg, d') ∧
      lg.minLevel = lv ∧ lg.filename = newLogFilename fp i := by
  have hfalse : pruneStep k (.present es false) = .ok (.present es false) :=
    pruneStep_present_le (by rw [listedFiles_false]; simpa using hk)
  refine ⟨rfl, by simp [NewLogger, hfalse, Except.map], ?_⟩
  intro d
  cases d with
  | absent => exact ⟨_, _, rfl, rfl, rfl⟩
  | present es' r =>
    cases r with
    | false =>
      have h : pruneStep k (.present es' false) = .ok (.present es' false) :=
        pruneStep_present_le (by rw [listedFiles_false]; simpa using hk)
      exact ⟨{ minLevel := lv, filename := newLogFilename fp i }, .present es' false,
        by simp [NewLogger, h, Except.map], rfl, rfl⟩
    | true =>
      obtain ⟨es'', heq, _⟩ := pruneStep_readable_ok es' hk
      exact ⟨{ minLevel := lv, filename := newLogFilename fp i }, .present es'' true,
        by simp [NewLogger, heq, Except.map], rfl, rfl⟩

/-- Witness for C6: an absent directory still yields a logger handle. -/
theorem c6_witness :
    NewLogger .absent "logs" 5 .debug ⟨sT1, 0⟩ =
      .ok ({ minLevel := .debug, filename := newLogFilename "logs" ⟨sT1, 0⟩ }, .absent) :=
  (c6_listing_errors_recovered "logs" 5 .debug ⟨sT1, 0⟩ ["x"] (by norm_num)).1

/-- Claim C7: pruning counts and sorts every directory entry; when an entry
that does not match the `logs_*.log` pattern is strictly smallest in Go's
string order, that unrelated entry is the one deleted. -/
theorem c7_prune_counts_all_entries (k : Int) (es : List String) (u : String)
    (hk : 0 ≤ k) (hu : u ∈ es) (hnotlog : matchesLogPattern u = false)
    (hmin : ∀ x ∈ es, x ≠ u → strLt u x = true)
    (hlen : (es.length : Int) > k) :
    pruneStep k (.present es true) = .ok (.present (es.erase u) true) := by
  have hne : es ≠ [] := by
    intro he
    rw [he] at hu
    exact List.not_mem_nil u hu
  obtain ⟨m, rest, hs⟩ : ∃ m rest, sortNames es = m :: rest := by
    cases hsn : sortNames es with
    | nil => exact absurd hsn (sortNames_ne_nil hne)
    | cons m rest => exact ⟨m, rest, rfl⟩
  have hmu : m = u := sortNames_head_unique_min hs hu hmin
  rw [hmu] at hs
  exact pruneStep_present_gt hlen hs

/-- Witness for C7: the unrelated entry `aaa.txt` is deleted, not a log. -/
theorem c7_witness :
    pruneStep 1 (.present ["logs_01-01-25_10-00-00.log", "aaa.txt"] true) =
      .ok (.present (["logs_01-01-25_10-00-00.log", "aaa.txt"].erase "aaa.txt") true) :=
  c7_prune_counts_all_entries 1 ["logs_01-01-25_10-00-00.log", "aaa.txt"] "aaa.txt"
    (by norm_num) (by decide) (by decide) (by decide) (by norm_num)

/-- Claim C9 counterexample: the console color mapping does not give the
error tier and the critical/panic/fatal tier distinct colors — `Fatal` is
rendered with the same color as `Error`, and differs from its own tier's
`DPanic`/`Panic` color. -/
theorem c9_counterexample :
    colorFor .fatal = colorFor .error ∧ colorFor .fatal ≠ colorFor .dpanic :=
  ⟨rfl, by decide⟩

/-- Claim C9 (amended): `colorFor` is a fixed pure mapping; debug, info,
warn, error and dpanic get pairwise distinct colors, panic shares dpanic's
magenta, but fatal reuses error's red. -/
theorem c9_amended_distinct_colors :
    List.Pairwise (fun a b => a ≠ b)
      [colorFor .debug, colorFor .info, colorFor .warn, colorFor .error,
        colorFor .dpanic] ∧
    colorFor .panic = colorFor .dpanic ∧
    colorFor .fatal = colorFor .error :=
  ⟨by decide, rfl, rfl⟩

/-- Claim C10: whenever the deleting branch runs with a non-negative
`maxBackup`, the sorted listing is non-empty, so the `files[0]` access is
in bounds; with `maxBackup = -1` and an existing empty readable directory
the branch runs on an empty slice and the access is out of bounds (the
modelled runtime panic). -/
theorem c10_prune_index_guard :
    (∀ (es : List String) (k : Int), 0 ≤ k → (es.length : Int) > k →
      sortNames es ≠ []) ∧
    pruneStep (-1) (.present [] true) = .error indexOutOfRange := by
  constructor
  · intro es k hk hgt
    apply sortNames_ne_nil
    intro he
    rw [he] at hgt
    simp only [List.length_nil, Nat.cast_zero] at hgt
    omega
  · rfl

/-- Witness for C10 at a concrete non-empty listing. -/
theorem c10_witness : sortNames ["logs_a.log"] ≠ [] :=
  c10_prune_index_guard.1 ["logs_a.log"] 0 (by norm_num) (by norm_num)

/-- Invariant behind C3: from a readable state with at most `k + 1`
entries, every successful run of scenario calls ends in a readable state
with at most `k + 1` entries. -/
theorem runCalls_inv (k : Int) (hk : 0 ≤ k) :
    ∀ (ts : List DateTime) (es : List String), (es.length : Int) ≤ k + 1 →
      ∀ d : DirState, runCalls k ts (.present es true) = .ok d →
        ∃ es' : List String, d = .present es' true ∧ (es'.length : Int) ≤ k + 1
  | [], es, hes, d, h => by
    simp only [runCalls] at h
    exact ⟨es, (Except.ok.injEq _ _).mp h.symm, hes⟩
  | t :: ts, es, hes, d, h => by
    obtain ⟨es1, hp, hbal⟩ := pruneStep_readable_ok es hk
    obtain ⟨es2, ha, hlen2⟩ := addFile_present es1 true (logBasename t)
    have hstep : factoryCallAt k t (.present es true) = .ok (.present es2 true) := by
      simp [factoryCallAt, factoryCallName, hp, Except.map, ha]
    rw [runCalls, hstep] at h
    have hes2 : (es2.length : Int) ≤ k + 1 := by
      by_cases hgt : (es.length : Int) > k
      · rw [if_pos hgt] at hbal
        omega
      · rw [if_neg hgt] at hbal
        omega
    exact runCalls_inv k hk ts es2 hes2 d h

/-- Claim C3: for every `retentionCount = k ≥ 0` and every sequence of
scenario factory calls against an initially empty readable directory,
every successfully reached directory state (in particular the state after
each call, obtained by truncating the sequence) holds at most `k + 1`
entries. -/
theorem c3_bounded_retention (k : Int) (ts : List DateTime) (d : DirState)
    (hk : 0 ≤ k) (h : runCalls k ts (.present [] true) = .ok d) :
    (d.count : Int) ≤ k + 1 := by
  obtain ⟨es', hd, hb⟩ := runCalls_inv k hk ts [] (by simp; omega) d h
  rw [hd]
  simpa [DirState.count] using hb

/-- Witness for C3: the concrete 5-call scenario stays within 4 entries. -/
theorem c3_witness :
    ((DirState.present c1FinalEntries true).count : Int) ≤ 3 + 1 :=
  c3_bounded_retention 3 [sT1, sT2, sT3, sT4, sT5]
    (.present c1FinalEntries true) (by norm_num) rfl

/-- Claim C5: every record whose level reaches `minLevel` is emitted to
both sinks, each line carrying the identical message-and-fields body
`recordBody` and the identical capitalised level tag, differing only in
the color wrapper and the year rendering of the timestamp; a record below
`minLevel` is emitted to neither sink. -/
theorem c5_dual_sink_level_filtering (lg : Logger) (r : Record) :
    (levelEnabled lg.minLevel r.level = true →
      teeEmit lg r = (some (consoleLine r), some (fileLine r)) ∧
      consoleLine r = consoleTime r.time ++ "\t" ++
        (colorFor r.level ++ Level.capitalString r.level ++ colorReset) ++
        "\t" ++ recordBody r ∧
      fileLine r = fileTime r.time ++ "\t" ++ Level.capitalString r.level ++
        "\t" ++ recordBody r) ∧
    (levelEnabled lg.minLevel r.level = false → teeEmit lg r = (none, none)) := by
  constructor
  · intro h
    exact ⟨by simp [teeEmit, coreEmit, h], rfl, rfl⟩
  · intro h
    simp [teeEmit, coreEmit, h]

/-- Witness for C5: a warn record passes both sinks of an info logger, a
debug record passes neither. -/
theorem c5_witness :
    teeEmit sampleLogger sampleWarnRecord =
      (some (consoleLine sampleWarnRecord), some (fileLine sampleWarnRecord)) ∧
    teeEmit sampleLogger sampleDebugRecord = (none, none) :=
  ⟨((c5_dual_sink_level_filtering sampleLogger sampleWarnRecord).1 (by decide)).1,
    (c5_dual_sink_level_filtering sampleLogger sampleDebugRecord).2 (by decide)⟩

/-- Claim C8: the new file's path is exactly
`<directory>/logs_<timestamp>.log`, with every two-digit timestamp field
zero-padded, the path depends only on the second-resolution part of the
wall-clock instant — so two calls within the same second collide — and the
returned handle is bound to exactly this path. -/
theorem c8_path_shape_and_second_collision (fp : String) (i1 i2 : Instant)
    (h : i1.dt = i2.dt) :
    newLogFilename fp i1 = fp ++ "/logs_" ++ formatStamp i1.dt ++ ".log" ∧
    newLogFilename fp i1 = newLogFilename fp i2 ∧
    (∀ n < 100, (pad2 n).length = 2) ∧
    ∀ (d : DirState) (k : Int) (lv : Level) (lg : Logger) (d' : DirState),
      NewLogger d fp k lv i1 = .ok (lg, d') → lg.filename = newLogFilename fp i1 := by
  refine ⟨rfl, by rw [newLogFilename, newLogFilename, h], by decide, ?_⟩
  intro d k lv lg d' hok
  unfold NewLogger at hok
  cases hp : pruneStep k d with
  | error e =>
    rw [hp] at hok
    simp [Except.map] at hok
  | ok dd =>
    rw [hp] at hok
    simp only [Except.map, Except.ok.injEq, Prod.mk.injEq] at hok
    rw [← hok.1]

/-- Witness for C8: two instants in the same second, different sub-second
parts, same path. -/
theorem c8_witness :
    newLogFilename "logs" ⟨sT1, 0⟩ = newLogFilename "logs" ⟨sT1, 999999999⟩ :=
  (c8_path_shape_and_second_collision "logs" ⟨sT1, 0⟩ ⟨sT1, 999999999⟩ rfl).2.1

/-- Unfolding lemma for a successful scenario step. -/
theorem runCallsNames_cons {k : Int} {n : String} {ns : List String}
    {d d' : DirState} (h : factoryCallName k n d = .ok d') :
    runCallsNames k (n :: ns) d = runCallsNames k ns d' := by
  rw [runCallsNames, h]

/-- Claim C1 counterexample: in the concrete 5-call scenario
(`retentionCount = 3`, calls one second apart, initially empty directory)
the final directory indeed has exactly 4 files, but the 2nd call's file is
still present — only the 1st call's file was deleted, so the claim's
"files from the 1st and 2nd calls are both absent" is false. -/
theorem c1_counterexample :
    runCalls 3 [sT1, sT2, sT3, sT4, sT5] (.present [] true) =
      .ok (.present c1FinalEntries true) ∧
    c1FinalEntries.length = 4 ∧
    logBasename sT2 ∈ c1FinalEntries :=
  ⟨rfl, rfl, List.mem_cons_self _ _⟩

/-- Claim C1 (amended): with `retentionCount = 3` and five calls whose
generated names strictly increase in Go's string order (as for calls one
second apart within the same day), the directory ends with exactly the 4
files of calls 2–5: the 1st call's file is absent and the 2nd call's file
is present. -/
theorem c1_amended_retention_scenario (n1 n2 n3 n4 n5 : String)
    (h12 : strLt n1 n2 = true) (h23 : strLt n2 n3 = true)
    (h34 : strLt n3 n4 = true) (h45 : strLt n4 n5 = true) :
    runCallsNames 3 [n1, n2, n3, n4, n5] (.present [] true) =
      .ok (.present [n2, n3, n4, n5] true) ∧
    (DirState.present [n2, n3, n4, n5] true).count = 4 ∧
    n1 ∉ [n2, n3, n4, n5] ∧ n2 ∈ [n2, n3, n4, n5] := by
  have h13 := strLt_trans h12 h23
  have h14 := strLt_trans h13 h34
  have h15 := strLt_trans h14 h45
  have h24 := strLt_trans h23 h34
  have h25 := strLt_trans h24 h45
  have h35 := strLt_trans h34 h45
  have s1 : factoryCallName 3 n1 (.present [] true) = .ok (.present [n1] true) := by
    have hp : pruneStep 3 (.present ([] : List String) true) = .ok (.present [] true) :=
      pruneStep_present_le (by rw [listedFiles_true]; norm_num)
    simp [factoryCallName, hp, Except.map, addFile]
  have s2 : factoryCallName 3 n2 (.present [n1] true) = .ok (.present [n1, n2] true) := by
    have hp : pruneStep 3 (.present [n1] true) = .ok (.present [n1] true) :=
      pruneStep_present_le (by rw [listedFiles_true]; norm_num)
    have hnm : n2 ∉ [n1] := by
      simp only [List.mem_singleton]
      exact fun he => ne_of_strLt h12 he.symm
    rw [factoryCallName, hp]
    simp [Except.map, addFile_not_mem hnm]
  have s3 : factoryCallName 3 n3 (.present [n1, n2] true) =
      .ok (.present [n1, n2, n3] true) := by
    have hp : pruneStep 3 (.present [n1, n2] true) = .ok (.present [n1, n2] true) :=
      pruneStep_present_le (by rw [listedFiles_true]; norm_num)
    have hnm : n3 ∉ [n1, n2] := by
      simp only [List.mem_cons, List.not_mem_nil, or_false]
      push_neg
      exact ⟨fun he => ne_of_strLt h13 he.symm, fun he => ne_of_strLt h23 he.symm⟩
    rw [factoryCallName, hp]
    simp [Except.map, addFile_not_mem hnm]
  have s4 : factoryCallName 3 n4 (.present [n1, n2, n3] true) =
      .ok (.present [n1, n2, n3, n4] true) := by
    have hp : pruneStep 3 (.present [n1, n2, n3] true) =
        .ok (.present [n1, n2, n3] true) :=
      pruneStep_present_le (by rw [listedFiles_true]; norm_num)
    have hnm : n4 ∉ [n1, n2, n3] := by
      simp only [List.mem_cons, List.not_mem_nil, or_false]
      push_neg
      exact ⟨fun he => ne_of_strLt h14 he.symm, fun he => ne_of_strLt h24 he.symm,
        fun he => ne_of_strLt h34 he.symm⟩
    rw [factoryCallName, hp]
    simp [Except.map, addFile_not_mem hnm]
  have hsorted : List.Sorted goLe [n1, n2, n3, n4] := by
    refine List.Pairwise.cons (fun b hb => ?_) (List.Pairwise.cons (fun b hb => ?_)
      (List.Pairwise.cons (fun b hb => ?_) (List.Pairwise.cons (fun b hb => ?_)
        List.Pairwise.nil)))
    · fin_cases hb
      · exact goLe_of_strLt h12
      · exact goLe_of_strLt h13
      · exact goLe_of_strLt h14
    · fin_cases hb
      · exact goLe_of_strLt h23
      · exact goLe_of_strLt h24
    · fin_cases hb
      · exact goLe_of_strLt h34
    · exact absurd hb (List.not_mem_nil b)
  have hs : sortNames [n1, n2, n3, n4] = n1 :: [n2, n3, n4] :=
    hsorted.insertionSort_eq
  have hp5 : pruneStep 3 (.present [n1, n2, n3, n4] true) =
      .ok (.present [n2, n3, n4] true) := by
    have hgt : (([n1, n2, n3, n4] : List String).length : Int) > 3 := by norm_num
    have := pruneStep_present_gt hgt hs
    simpa [List.erase_cons_head] using this
  have s5 : factoryCallName 3 n5 (.present [n1, n2, n3, n4] true) =
      .ok (.present [n2, n3, n4, n5] true) := by
    have hnm : n5 ∉ [n2, n3, n4] := by
      simp only [List.mem_cons, List.not_mem_nil, or_false]
      push_neg
      exact ⟨fun he => ne_of_strLt h25 he.symm, fun he => ne_of_strLt h35 he.symm,
        fun he => ne_of_strLt h45 he.symm⟩
    rw [factoryCallName, hp5]
    simp [Except.map, addFile_not_mem hnm]
  refine ⟨?_, rfl, ?_, List.mem_cons_self _ _⟩
  · rw [runCallsNames_cons s1, runCallsNames_cons s2, runCallsNames_cons s3,
      runCallsNames_cons s4, runCallsNames_cons s5]
    rfl
  · simp only [List.mem_cons, List.not_mem_nil, or_false]
    push_neg
    exact ⟨ne_of_strLt h12, ne_of_strLt h13, ne_of_strLt h14, ne_of_strLt h15⟩

/-- Witness for the amended C1 at concrete increasing names. -/
theorem c1_amended_witness :
    runCallsNames 3 ["logs_a.log", "logs_b.log", "logs_c.log", "logs_d.log",
        "logs_e.log"] (.present [] true) =
      .ok (.present ["logs_b.log", "logs_c.log", "logs_d.log", "logs_e.log"]
        true) :=
  (c1_amended_retention_scenario "logs_a.log" "logs_b.log" "logs_c.log"
    "logs_d.log" "logs_e.log" (by decide) (by decide) (by decide) (by decide)).1

end Zapwrapper
